import Mathlib

/-
Verification development for the software-GPU pixel backend
(rasterizer traversal and compiled pixel pipeline).

The definitions below are a shallow embedding of the C++ source:
  - GPU/Software/Rasterizer.cpp (DrawTriangle, DrawTriangleSlice, DrawLine,
    DrawPoint, ClearRectangle, MakeMask, AnyMask, blending and fog helpers)
  - GPU/Software/DrawPixelX86.cpp (the pixel-pipeline compiler:
    Jit_ApplyFog, Jit_ApplyStencilOp, Jit_DepthTest, Jit_WriteDepth,
    Jit_AlphaBlend)
Machine integers are modelled as Nat/Int with explicit wrapping or
saturation where the instructions wrap or saturate.  SSE lane arithmetic is
modelled per 16-bit lane.
-/

namespace SoftRast

/-- Bitwise OR on mathematical integers, reading negative numbers in twos
complement (this is the signed integer OR the rasterizer uses on edge
values, where only the sign of the result matters).  Matches the usual
definition: the complement of a natural n is the negative number -(n+1),
and n - (n &&& m) clears the bits of m from n (n AND NOT m). -/
def intOr : Int → Int → Int
  | Int.ofNat m, Int.ofNat n => Int.ofNat (m ||| n)
  | Int.ofNat m, Int.negSucc n => Int.negSucc (n - (n &&& m))
  | Int.negSucc m, Int.ofNat n => Int.negSucc (m - (m &&& n))
  | Int.negSucc m, Int.negSucc n => Int.negSucc (m &&& n)

/-- RGBA color with one integer per channel (Vec4 of int in the source). -/
structure Vec4i where
  r : Int
  g : Int
  b : Int
  a : Int
deriving DecidableEq, Repr

/-- RGB color with one integer per channel (Vec3 of int in the source). -/
structure Vec3i where
  r : Int
  g : Int
  b : Int
deriving DecidableEq, Repr

/-- Framebuffer pixel formats (GEBufferFormat, 16/32-bit color layouts). -/
inductive GEBufferFormat
  | format565
  | format5551
  | format4444
  | format8888
deriving DecidableEq, Repr

/-- Comparison functions used by alpha/color/depth/stencil tests
(GEComparison). -/
inductive GEComparison
  | never
  | always
  | equal
  | notEqual
  | less
  | lessEq
  | greater
  | greaterEq
deriving DecidableEq, Repr

/-- Stencil update operations (GEStencilOp). -/
inductive GEStencilOp
  | keep
  | zero
  | replace
  | invert
  | incr
  | decr
deriving DecidableEq, Repr

/- ---------------------------------------------------------------------
Fog stage (DrawPixelX86.cpp, PixelJitCache::Jit_ApplyFog).
The compiled code works on 16-bit unsigned SIMD lanes:
  PMULLW   lane multiply, low 16 bits (mod 2^16)
  PSUBUSW  lane subtract with unsigned saturation at 0
  PADDUSW  lane add with unsigned saturation at 0xFFFF
  PMULHUW  lane multiply, high 16 bits
  PSRLW 7  lane logical shift right by 7
--------------------------------------------------------------------- -/

/-- Low 16 bits of a lane product (PMULLW). -/
def pmullw (x y : Nat) : Nat := (x * y) % 65536

/-- Unsigned saturating lane subtraction (PSUBUSW); Nat subtraction already
saturates at 0. -/
def psubusw (x y : Nat) : Nat := x - y

/-- Unsigned saturating lane addition (PADDUSW). -/
def paddusw (x y : Nat) : Nat := min (x + y) 65535

/-- High 16 bits of a lane product (PMULHUW); for lane inputs below 2^16 the
high word is exactly the quotient by 2^16. -/
def pmulhuw (x y : Nat) : Nat := (x * y) / 65536

/-- One 8-bit color channel of the compiled fog stage
(Jit_ApplyFog): color times fog factor plus fog color times inverted fog
factor, then the divide-by-255 bit trick: multiply-high by 0x8081 and shift
right 7 more bits. -/
def fogChannel (c f w : Nat) : Nat :=
  let cw := pmullw c w
  let inv := psubusw 255 w
  let fi := pmullw f inv
  let sum := paddusw cw fi
  pmulhuw sum 0x8081 / 128

/-- The full fog stage on an RGBA pixel: the three color channels are
blended toward the fog color, the alpha channel is saved before the blend
and reinserted afterwards (PEXTRW / PINSRW in Jit_ApplyFog). -/
def applyFog (color : Vec4i) (fogColor : Vec3i) (w : Nat) : Vec4i :=
  { r := Int.ofNat (fogChannel color.r.toNat fogColor.r.toNat w)
    g := Int.ofNat (fogChannel color.g.toNat fogColor.g.toNat w)
    b := Int.ofNat (fogChannel color.b.toNat fogColor.b.toNat w)
    a := color.a }

/- ---------------------------------------------------------------------
Stencil update (DrawPixelX86.cpp, PixelJitCache::Jit_ApplyStencilOp).
The stencil value lives in an 8-bit register; ADD/SUB are 8-bit and so
wrap mod 256, CMP/JAE/JB/JE are unsigned byte comparisons.
--------------------------------------------------------------------- -/

/-- Stencil op applied to the 8-bit stencil value s, per framebuffer format
(Jit_ApplyStencilOp).  ref is the stencil reference baked for REPLACE. -/
def applyStencilOp (fmt : GEBufferFormat) (op : GEStencilOp) (ref : Nat) (s : Nat) : Nat :=
  match op with
  | GEStencilOp.keep => s
  | GEStencilOp.zero => 0
  | GEStencilOp.replace => ref
  | GEStencilOp.invert => 255 - s
  | GEStencilOp.incr =>
    match fmt with
    | GEBufferFormat.format565 => s
    | GEBufferFormat.format5551 => 0xFF
    | GEBufferFormat.format4444 => if 0xF0 ≤ s then s else (s + 0x11) % 256
    | GEBufferFormat.format8888 => if s = 0xFF then s else (s + 1) % 256
  | GEStencilOp.decr =>
    match fmt with
    | GEBufferFormat.format565 => s
    | GEBufferFormat.format5551 => 0
    | GEBufferFormat.format4444 => if s < 0x11 then s else s - 0x11
    | GEBufferFormat.format8888 => if s = 0 then s else s - 1

/- ---------------------------------------------------------------------
Depth test and depth write (DrawPixelX86.cpp, PixelJitCache::Jit_DepthTest
and Jit_WriteDepth).  The incoming depth and the stored depth are 16-bit
unsigned values; the comparison is unsigned (CC_AE etc.), and the generated
code discards on the opposite of the passing condition.
--------------------------------------------------------------------- -/

/-- Whether the depth test passes (Jit_DepthTest discards on the opposite
condition; NEVER discards unconditionally, ALWAYS emits no test). -/
def depthTestPassed (func : GEComparison) (z old : Nat) : Bool :=
  match func with
  | GEComparison.never => false
  | GEComparison.always => true
  | GEComparison.equal => z == old
  | GEComparison.notEqual => z != old
  | GEComparison.less => z < old
  | GEComparison.lessEq => z ≤ old
  | GEComparison.greater => old < z
  | GEComparison.greaterEq => old ≤ z

/-- The no-stencil depth stage followed by the depth write
(Jit_DepthTest then Jit_WriteDepth): on discard no later stage runs and
nothing is stored (none); on pass the stored depth is replaced by the
incoming depth when depth write is enabled. -/
def depthStage (func : GEComparison) (depthWrite : Bool) (z old : Nat) : Option Nat :=
  if depthTestPassed func z old then some (if depthWrite then z else old) else none

/- ---------------------------------------------------------------------
Alpha blending (Rasterizer.cpp: GetSourceFactor, GetDestFactor,
AlphaBlendingResult).  Colors entering the blend are clamped to 8 bits per
channel, so channels are modelled as Nat.  The blend arithmetic follows the
SSE path of AlphaBlendingResult: lanes are packed to 16 bits (PACKSSDW),
shifted left 4 with a half-bit of 8 added, multiplied keeping the high 16
bits (PMULHW), and combined with signed saturating add/sub; the scalar
fallback path computes the identical ((2c+1)(2f+1))/1024 values.
--------------------------------------------------------------------- -/

/-- RGBA color with 8-bit-clamped Nat channels, as seen by the blend stage. -/
structure Color4 where
  r : Nat
  g : Nat
  b : Nat
  a : Nat
deriving DecidableEq, Repr

/-- RGB triple of Nat channels (blend factors, fix constants). -/
structure Color3 where
  r : Nat
  g : Nat
  b : Nat
deriving DecidableEq, Repr

/-- Source blend factor selector (GEBlendSrcFactor; values above 10 are
treated as FIXA by the default case). -/
inductive GEBlendSrcFactor
  | dstColor
  | invDstColor
  | srcAlpha
  | invSrcAlpha
  | dstAlpha
  | invDstAlpha
  | doubleSrcAlpha
  | doubleInvSrcAlpha
  | doubleDstAlpha
  | doubleInvDstAlpha
  | fixA
deriving DecidableEq, Repr

/-- Destination blend factor selector (GEBlendDstFactor; values above 10 are
treated as FIXB by the default case). -/
inductive GEBlendDstFactor
  | srcColor
  | invSrcColor
  | srcAlpha
  | invSrcAlpha
  | dstAlpha
  | invDstAlpha
  | doubleSrcAlpha
  | doubleInvSrcAlpha
  | doubleDstAlpha
  | doubleInvDstAlpha
  | fixB
deriving DecidableEq, Repr

/-- Blend equations (GEBlendMode). -/
inductive GEBlendMode
  | mulAndAdd
  | mulAndSubtract
  | mulAndSubtractReverse
  | blendMin
  | blendMax
  | absDiff
deriving DecidableEq, Repr

/-- Broadcast one Nat to an RGB triple (Vec3 AssignToAll). -/
def assignToAll3 (x : Nat) : Color3 := { r := x, g := x, b := x }

/-- Source blend factor (GetSourceFactor).  Channels cannot go below 0 but
can go above 255 when doubling. -/
def getSourceFactor (factor : GEBlendSrcFactor) (source dst : Color4) (fixA : Color3) : Color3 :=
  match factor with
  | GEBlendSrcFactor.dstColor => { r := dst.r, g := dst.g, b := dst.b }
  | GEBlendSrcFactor.invDstColor => { r := 255 - dst.r, g := 255 - dst.g, b := 255 - dst.b }
  | GEBlendSrcFactor.srcAlpha => assignToAll3 source.a
  | GEBlendSrcFactor.invSrcAlpha => assignToAll3 (255 - source.a)
  | GEBlendSrcFactor.dstAlpha => assignToAll3 dst.a
  | GEBlendSrcFactor.invDstAlpha => assignToAll3 (255 - dst.a)
  | GEBlendSrcFactor.doubleSrcAlpha => assignToAll3 (2 * source.a)
  | GEBlendSrcFactor.doubleInvSrcAlpha => assignToAll3 (255 - min (2 * source.a) 255)
  | GEBlendSrcFactor.doubleDstAlpha => assignToAll3 (2 * dst.a)
  | GEBlendSrcFactor.doubleInvDstAlpha => assignToAll3 (255 - min (2 * dst.a) 255)
  | GEBlendSrcFactor.fixA => fixA

/-- Destination blend factor (GetDestFactor). -/
def getDestFactor (factor : GEBlendDstFactor) (source dst : Color4) (fixB : Color3) : Color3 :=
  match factor with
  | GEBlendDstFactor.srcColor => { r := source.r, g := source.g, b := source.b }
  | GEBlendDstFactor.invSrcColor =>
    { r := 255 - source.r, g := 255 - source.g, b := 255 - source.b }
  | GEBlendDstFactor.srcAlpha => assignToAll3 source.a
  | GEBlendDstFactor.invSrcAlpha => assignToAll3 (255 - source.a)
  | GEBlendDstFactor.dstAlpha => assignToAll3 dst.a
  | GEBlendDstFactor.invDstAlpha => assignToAll3 (255 - dst.a)
  | GEBlendDstFactor.doubleSrcAlpha => assignToAll3 (2 * source.a)
  | GEBlendDstFactor.doubleInvSrcAlpha => assignToAll3 (255 - min (2 * source.a) 255)
  | GEBlendDstFactor.doubleDstAlpha => assignToAll3 (2 * dst.a)
  | GEBlendDstFactor.doubleInvDstAlpha => assignToAll3 (255 - min (2 * dst.a) 255)
  | GEBlendDstFactor.fixB => fixB

/-- Signed 32-to-16 pack with saturation (PACKSSDW) restricted to the
non-negative lanes the blend stage produces. -/
def packs16 (x : Nat) : Nat := min x 32767

/-- High 16 bits of a signed 16-bit lane product (PMULHW) on the
non-negative in-range lanes used here. -/
def pmulhw (x y : Nat) : Nat := (x * y) / 65536

/-- One blend half-term: the lane is shifted left 4 and gets the rounding
half-bit 8 (a fixed-point 0.5 in s.11.4) before the multiply, so the
16-bit-shift of PMULHW leaves exactly ((2c+1)(2f+1))/1024. -/
def blendTerm (c f : Nat) : Nat := pmulhw (16 * packs16 c + 8) (16 * packs16 f + 8)

/-- Signed saturating lane add (PADDSW) on non-negative lanes. -/
def padds16 (x y : Nat) : Nat := min (x + y) 32767

/-- Signed saturating lane subtract clamped below at zero (PSUBSW followed
by PMAXSW with zero); on the in-range lanes used here this is truncated
subtraction. -/
def psubs16max0 (x y : Nat) : Nat := x - y

/-- Blend combination per channel (AlphaBlendingResult switch). -/
def blendChannel (eq : GEBlendMode) (s d sf df : Nat) : Nat :=
  match eq with
  | GEBlendMode.mulAndAdd => padds16 (blendTerm s sf) (blendTerm d df)
  | GEBlendMode.mulAndSubtract => psubs16max0 (blendTerm s sf) (blendTerm d df)
  | GEBlendMode.mulAndSubtractReverse => psubs16max0 (blendTerm d df) (blendTerm s sf)
  | GEBlendMode.blendMin => min s d
  | GEBlendMode.blendMax => max s d
  | GEBlendMode.absDiff => Int.natAbs ((s : Int) - (d : Int))

/-- RGB result of the blend (AlphaBlendingResult): factors are computed
from the factor selectors, then combined channelwise; alpha is never
blended here. -/
def alphaBlendingResult (eq : GEBlendMode) (srcSel : GEBlendSrcFactor)
    (dstSel : GEBlendDstFactor) (fixA fixB : Color3) (source dst : Color4) : Color3 :=
  let sf := getSourceFactor srcSel source dst fixA
  let df := getDestFactor dstSel source dst fixB
  { r := blendChannel eq source.r dst.r sf.r df.r
    g := blendChannel eq source.g dst.g sf.g df.g
    b := blendChannel eq source.b dst.b sf.b df.b }

/- ---------------------------------------------------------------------
Rasterizer data model (Rasterizer.cpp).
Screen coordinates are 12.4 fixed point (4 subpixel bits); drawing
coordinates are pixels.  Vertex fog depth is a float in the source; it is
modelled as a rational, which represents every float exactly and supports
the only operations performed on it here (comparisons against 1.0).
--------------------------------------------------------------------- -/

/-- Pair of integer coordinates (Vec2 of int). -/
structure Vec2i where
  x : Int
  y : Int
deriving DecidableEq, Repr

/-- Screen-space vertex position: 12.4 fixed-point x and y plus a 16-bit
depth (ScreenCoords). -/
structure ScreenPos where
  x : Int
  y : Int
  z : Nat
deriving DecidableEq, Repr

/-- The per-vertex data the rasterizer consumes (VertexData), restricted to
the fields the traversal itself reads. -/
structure VertexData where
  screenpos : ScreenPos
  color0 : Vec4i
  color1 : Vec3i
  fogdepth : Rat
deriving DecidableEq, Repr

/-- The slice of the global graphics state (gstate) the traversal reads. -/
structure GState where
  scissorX1 : Int
  scissorY1 : Int
  scissorX2 : Int
  scissorY2 : Int
  shadeGouraud : Bool
  clearMode : Bool
  fogEnabled : Bool
  clearModeColorMask : Bool
  clearModeAlphaMask : Bool
  clearModeDepthMask : Bool
  colorMask : Nat
  fbFormat : GEBufferFormat
deriving Repr

/-- Modelled from the spec: TransformUnit::DrawingToScreen converts a
drawing (pixel) coordinate to 12.4 fixed-point screen space by shifting in
the 4 subpixel bits. -/
def drawingToScreen (x : Int) : Int := 16 * x

/-- Modelled from the spec: TransformUnit::ScreenToDrawing drops the 4
subpixel bits of a screen coordinate. -/
def screenToDrawing (x : Int) : Int := x / 16

/-- Clearing the low four bits of a coordinate (x & ~0xF in twos
complement) equals subtracting the Euclidean remainder mod 16. -/
def alignDown16 (x : Int) : Int := x - x % 16

/-- Setting the low four bits of a coordinate (x | 0xF in twos complement)
equals clearing them and adding 15. -/
def orLow15 (x : Int) : Int := x - x % 16 + 15

/-- The xy part of a screen position. -/
def screenXY (v : ScreenPos) : Vec2i := { x := v.x, y := v.y }

/-- Top-left fill rule test (IsRightSideOrFlatBottomLine); the division is
the C truncating integer division. -/
def isRightSideOrFlatBottomLine (vertex line1 line2 : Vec2i) : Bool :=
  if line1.y = line2.y then decide (vertex.y < line1.y)
  else
    decide (vertex.x <
      line1.x + Int.tdiv ((line2.x - line1.x) * (vertex.y - line1.y)) (line2.y - line1.y))

/-- Edge function of the directed edge v0 to v1 at a subpixel position
(TriangleEdge::Start computes xf*initX + yf*initY + c at the four pixel
centers of a quad; StepX and StepY add xf*32 and yf*32, which equals
re-evaluating this affine function at the stepped position, so the
embedding evaluates it directly). -/
def edgeFunction (v0 v1 : ScreenPos) (px py : Int) : Int :=
  (v0.y - v1.y) * px + (v1.x - v0.x) * py + (v1.y * v0.x - v1.x * v0.y)

/-- Subpixel x offset of lane i of a quad (initX adds 7,23,7,23). -/
def laneOffX (i : Nat) : Int := if i % 2 = 1 then 23 else 7

/-- Subpixel y offset of lane i of a quad (initY adds 7,7,23,23). -/
def laneOffY (i : Nat) : Int := if 2 ≤ i then 23 else 7

/-- Per-lane scissor mask value in the quad at column step kx of a row
(scissor_mask starts as (0, maxX-minX-16, scissorYPlus1,
(maxX-minX-16)|scissorYPlus1) and gets (0,-32,0,-32) added per step). -/
def scissorLane (x1 x2 y2 curY : Int) (kx : Nat) (i : Nat) : Int :=
  let scissorYPlus1 : Int := if y2 < curY + 16 then -1 else 0
  match i with
  | 0 => 0
  | 1 => (x2 - x1 - 16) - 32 * (kx : Int)
  | 2 => scissorYPlus1
  | _ => intOr (x2 - x1 - 16) scissorYPlus1 - 32 * (kx : Int)

/-- Combined coverage mask value of lane i (MakeMask): the three biased
edge values ORed together and ORed with the scissor mask, so that the sign
bit of the result is set exactly when any contributor is negative. -/
def makeMaskLane (v0 v1 v2 : VertexData) (x1 y1 x2 y2 : Int) (ky kx : Nat) (i : Nat) : Int :=
  let b0 : Int :=
    if isRightSideOrFlatBottomLine (screenXY v0.screenpos) (screenXY v1.screenpos)
        (screenXY v2.screenpos) then -1 else 0
  let b1 : Int :=
    if isRightSideOrFlatBottomLine (screenXY v1.screenpos) (screenXY v2.screenpos)
        (screenXY v0.screenpos) then -1 else 0
  let b2 : Int :=
    if isRightSideOrFlatBottomLine (screenXY v2.screenpos) (screenXY v0.screenpos)
        (screenXY v1.screenpos) then -1 else 0
  let curX := x1 + 32 * (kx : Int)
  let curY := y1 + 32 * (ky : Int)
  let px := curX + laneOffX i
  let py := curY + laneOffY i
  let w0 := edgeFunction v1.screenpos v2.screenpos px py
  let w1 := edgeFunction v2.screenpos v0.screenpos px py
  let w2 := edgeFunction v0.screenpos v1.screenpos px py
  intOr (intOr (intOr (w0 + b0) (w1 + b1)) (w2 + b2)) (scissorLane x1 x2 y2 curY kx i)

/-- Quad early-out test (AnyMask): true when at least one lane mask is
non-negative. -/
def anyMask (m : Nat → Int) : Bool :=
  decide (0 ≤ m 0) || decide (0 ≤ m 1) || decide (0 ≤ m 2) || decide (0 ≤ m 3)

/-- Drawing-space x coordinate of the quad at column step kx: p.x starts at
ScreenToDrawing(minX) and is updated by p.x = (p.x + 2) & 0x3FF each step
(masking with 0x3FF is the Euclidean remainder mod 1024). -/
def sliceColX (x1 : Int) (kx : Nat) : Int :=
  if kx = 0 then screenToDrawing x1 else (screenToDrawing x1 + 2 * (kx : Int)) % 1024

/-- The drawing coordinates at which one quad of DrawTriangleSlice invokes
the compiled drawPixel function: lanes are skipped when their mask value is
negative, and the whole quad is skipped when no lane is covered. -/
def quadPixels (v0 v1 v2 : VertexData) (x1 y1 x2 y2 : Int) (ky kx : Nat) : List (Int × Int) :=
  let m := makeMaskLane v0 v1 v2 x1 y1 x2 y2 ky kx
  if anyMask m then
    (List.range 4).filterMap fun i =>
      if 0 ≤ m i then
        some (sliceColX x1 kx + ((i % 2 : Nat) : Int),
          screenToDrawing (y1 + 32 * (ky : Int)) + ((i / 2 : Nat) : Int))
      else none
  else []

/-- Number of iterations of a for-loop running from a to b inclusive in
steps of 32. -/
def stepCount32 (a b : Int) : Nat := ((b - a) / 32 + 1).toNat

/-- The drawing coordinates at which DrawTriangleSlice invokes the compiled
drawPixel function, in traversal order: rows stepped by 32 subpixels (two
pixel rows, one quad) and columns stepped by 32 subpixels. -/
def drawTriangleSlicePixels (v0 v1 v2 : VertexData) (x1 y1 x2 y2 : Int) : List (Int × Int) :=
  (List.range (stepCount32 y1 y2)).flatMap fun ky =>
    (List.range (stepCount32 x1 x2)).flatMap fun kx =>
      quadPixels v0 v1 v2 x1 y1 x2 y2 ky kx

/-- The cross product DrawTriangle uses to drop triangles that are not in
counter-clockwise order: d01.x * d02.y - d01.y * d02.x with d01 = v0 - v1
and d02 = v0 - v2 (screen-space xy). -/
def crossTerm (v0 v1 v2 : VertexData) : Int :=
  let d01x := v0.screenpos.x - v1.screenpos.x
  let d01y := v0.screenpos.y - v1.screenpos.y
  let d02x := v0.screenpos.x - v2.screenpos.x
  let d02y := v0.screenpos.y - v2.screenpos.y
  d01x * d02y - d01y * d02x

/-- The drawing coordinates at which DrawTriangle invokes the compiled
drawPixel function.  The three fan-out branches (column slices, row slices,
synchronous) all cover exactly the bounding box clamped to the scissor
rectangle - the parallel branches split the identical range into disjoint
chunks whose union is the full range - so the trace is the full-range
slice. -/
def drawTrianglePixels (g : GState) (v0 v1 v2 : VertexData) : List (Int × Int) :=
  let d01x := v0.screenpos.x - v1.screenpos.x
  let d01y := v0.screenpos.y - v1.screenpos.y
  let d02x := v0.screenpos.x - v2.screenpos.x
  let d02y := v0.screenpos.y - v2.screenpos.y
  if crossTerm v0 v1 v2 < 0 then []
  else if d01x = 0 ∧ d01y = 0 ∧ d02x = 0 ∧ d02y = 0 then []
  else
    let minX := max (alignDown16 (min (min v0.screenpos.x v1.screenpos.x) v2.screenpos.x))
      (drawingToScreen g.scissorX1)
    let minY := max (alignDown16 (min (min v0.screenpos.y v1.screenpos.y) v2.screenpos.y))
      (drawingToScreen g.scissorY1)
    let maxX := min (orLow15 (max (max v0.screenpos.x v1.screenpos.x) v2.screenpos.x))
      (drawingToScreen g.scissorX2 + 15)
    let maxY := min (orLow15 (max (max v0.screenpos.y v1.screenpos.y) v2.screenpos.y))
      (drawingToScreen g.scissorY2 + 15)
    if maxX < minX ∨ maxY < minY then []
    else drawTriangleSlicePixels v0 v1 v2 minX minY maxX maxY

/-- Observable orchestration events of one DrawTriangle call: resolving the
compiled pixel function from the function cache, resolving the sampler
functions, and running one traversal slice (either synchronously or as a
parallel worker chunk). -/
inductive DrawEvent
  | resolvePixelFunc
  | resolveSampler
  | sliceRun
deriving DecidableEq, Repr

/-- Event trace of DrawTriangle in program order: after the early-out
checks, GetSingleFunc and Sampler::GetFuncs run on the calling thread, and
only then is the traversal started, as numSlices slice executions (the
thread pool chooses numSlices; every branch passes the already-resolved
function pointers to the slices as read-only arguments). -/
def drawTriangleEvents (g : GState) (v0 v1 v2 : VertexData) (numSlices : Nat) : List DrawEvent :=
  let d01x := v0.screenpos.x - v1.screenpos.x
  let d01y := v0.screenpos.y - v1.screenpos.y
  let d02x := v0.screenpos.x - v2.screenpos.x
  let d02y := v0.screenpos.y - v2.screenpos.y
  if crossTerm v0 v1 v2 < 0 then []
  else if d01x = 0 ∧ d01y = 0 ∧ d02x = 0 ∧ d02y = 0 then []
  else
    let minX := max (alignDown16 (min (min v0.screenpos.x v1.screenpos.x) v2.screenpos.x))
      (drawingToScreen g.scissorX1)
    let minY := max (alignDown16 (min (min v0.screenpos.y v1.screenpos.y) v2.screenpos.y))
      (drawingToScreen g.scissorY1)
    let maxX := min (orLow15 (max (max v0.screenpos.x v1.screenpos.x) v2.screenpos.x))
      (drawingToScreen g.scissorX2 + 15)
    let maxY := min (orLow15 (max (max v0.screenpos.y v1.screenpos.y) v2.screenpos.y))
      (drawingToScreen g.scissorY2 + 15)
    if maxX < minX ∨ maxY < minY then []
    else
      DrawEvent.resolvePixelFunc :: DrawEvent.resolveSampler ::
        List.replicate numSlices DrawEvent.sliceRun

/- ---------------------------------------------------------------------
Attribute setup inside DrawTriangleSlice: the flat-shading shortcuts.
The general interpolation paths use float arithmetic; they are abstracted
here as an interp parameter, because the claims under study are about when
the broadcast path is taken and what value it broadcasts.
--------------------------------------------------------------------- -/

/-- Flat-depth shortcut flag: all the z values are the same, no
interpolation required. -/
def flatZ (v0 v1 v2 : VertexData) : Bool :=
  v0.screenpos.z == v1.screenpos.z && v0.screenpos.z == v2.screenpos.z

/-- Colors are flat for the whole triangle in clear mode or when shading is
not Gouraud. -/
def flatColorAll (clearMode : Bool) (g : GState) : Bool := clearMode || !g.shadeGouraud

/-- Primary color is flat when colors are flat for the whole triangle or
the three vertex colors agree exactly. -/
def flatColor0 (clearMode : Bool) (g : GState) (v0 v1 v2 : VertexData) : Bool :=
  flatColorAll clearMode g || (v0.color0 == v1.color0 && v0.color0 == v2.color0)

/-- Secondary color is flat when colors are flat for the whole triangle or
the three vertex secondary colors agree exactly. -/
def flatColor1 (clearMode : Bool) (g : GState) (v0 v1 v2 : VertexData) : Bool :=
  flatColorAll clearMode g || (v0.color1 == v1.color1 && v0.color1 == v2.color1)

/-- Fog interpolation is skipped (factor 255 everywhere) in clear mode,
when fog is disabled, or when every vertex fog depth is at least 1.0 -
there is no equality-based shortcut for fog. -/
def noFog (clearMode : Bool) (g : GState) (v0 v1 v2 : VertexData) : Bool :=
  clearMode || !g.fogEnabled ||
    (decide (1 ≤ v0.fogdepth) && decide (1 ≤ v1.fogdepth) && decide (1 ≤ v2.fogdepth))

/-- Primary color of lane i: broadcast v2.color0 on the flat path,
otherwise the barycentric interpolation (the float computation, abstracted
as interp). -/
def lanePrimColor (clearMode : Bool) (g : GState) (v0 v1 v2 : VertexData)
    (interp : Nat → Vec4i) (i : Nat) : Vec4i :=
  if flatColor0 clearMode g v0 v1 v2 then v2.color0 else interp i

/-- Secondary color of lane i: broadcast v2.color1 on the flat path,
otherwise interpolated. -/
def laneSecColor (clearMode : Bool) (g : GState) (v0 v1 v2 : VertexData)
    (interp : Nat → Vec3i) (i : Nat) : Vec3i :=
  if flatColor1 clearMode g v0 v1 v2 then v2.color1 else interp i

/-- Fog factor of lane i: the constant 255 when fog interpolation is
skipped, otherwise the clamped interpolated fog depth (abstracted as
interp). -/
def laneFog (clearMode : Bool) (g : GState) (v0 v1 v2 : VertexData)
    (interp : Nat → Nat) (i : Nat) : Nat :=
  if noFog clearMode g v0 v1 v2 then 255 else interp i

/-- Depth of lane i: broadcast v2.screenpos.z on the flat path, otherwise
the float interpolation rounded to int (abstracted as interp). -/
def laneZ (v0 v1 v2 : VertexData) (interp : Nat → Nat) (i : Nat) : Nat :=
  if flatZ v0 v1 v2 then v2.screenpos.z else interp i

/- ---------------------------------------------------------------------
DrawLine (Rasterizer.cpp).  The line is stepped a fixed number of times
along the dominant axis; positions are accumulated in doubles, modelled
here by exact rationals (x0 + i * xinc equals the accumulated x after i
additions; every quantity involved is exactly representable).  When steps
is zero the loop body never runs, so the division by zero in xinc (a
double division in the source) is never consumed.
--------------------------------------------------------------------- -/

/-- Truncation toward zero of a rational, the C cast of a double to int. -/
def ratTrunc (q : Rat) : Int := Int.tdiv q.num (q.den : Int)

/-- Number of line steps (DrawLine): the dominant-axis delta in whole
pixels, abs(dx)/16 or abs(dy)/16. -/
def lineSteps (v0 v1 : VertexData) : Int :=
  let dx := v1.screenpos.x - v0.screenpos.x
  let dy := v1.screenpos.y - v0.screenpos.y
  if |dx| < |dy| then |dy| / 16 else |dx| / 16

/-- The drawing coordinates at which DrawLine invokes the compiled
drawPixel function.  The endpoint b reuses v0.screenpos.z for its depth, so
dz is 0; the small negative-delta nudge (dx in [-16,-1] gets +1) happens
after the step count is fixed. -/
def drawLinePixels (g : GState) (v0 v1 : VertexData) : List (Int × Int) :=
  let dx := v1.screenpos.x - v0.screenpos.x
  let dy := v1.screenpos.y - v0.screenpos.y
  let steps := lineSteps v0 v1
  let dx2 := if dx < 0 ∧ -16 ≤ dx then dx + 1 else dx
  let dy2 := if dy < 0 ∧ -16 ≤ dy then dy + 1 else dy
  let xinc : Rat := (dx2 : Rat) / (steps : Rat)
  let yinc : Rat := (dy2 : Rat) / (steps : Rat)
  let sTLx := drawingToScreen g.scissorX1
  let sTLy := drawingToScreen g.scissorY1
  let sBRx := drawingToScreen g.scissorX2 + 15
  let sBRy := drawingToScreen g.scissorY2 + 15
  let x0 : Rat := if v1.screenpos.x < v0.screenpos.x
    then (v0.screenpos.x : Rat) - 1 else (v0.screenpos.x : Rat)
  let y0 : Rat := if v1.screenpos.y < v0.screenpos.y
    then (v0.screenpos.y : Rat) - 1 else (v0.screenpos.y : Rat)
  (List.range steps.toNat).filterMap fun i =>
    let x := x0 + xinc * (i : Rat)
    let y := y0 + yinc * (i : Rat)
    if (sTLx : Rat) ≤ x ∧ (sTLy : Rat) ≤ y ∧ x ≤ (sBRx : Rat) ∧ y ≤ (sBRy : Rat) then
      some (screenToDrawing (ratTrunc x), screenToDrawing (ratTrunc y))
    else none

/- ---------------------------------------------------------------------
ClearRectangle (Rasterizer.cpp).  Framebuffer and depthbuffer are modelled
as total functions from drawing coordinates to stored values; a clear
writes a rectangle of rows.  The memset fast paths write the same values
as the generic loops (memset with both depth bytes equal stores exactly z
in every 16-bit cell), so each branch pair is modelled as one rectangle
fill.
--------------------------------------------------------------------- -/

/-- Modelled from the spec: RGBA8888ToRGB565 (ColorConv) packs 5 red bits,
6 green bits and 5 blue bits from the 8-bit channels. -/
def rgba8888ToRGB565 (c : Nat) : Nat :=
  ((c >>> 3) &&& 0x1F) ||| (((c >>> 10) &&& 0x3F) <<< 5) ||| (((c >>> 19) &&& 0x1F) <<< 11)

/-- Modelled from the spec: RGBA8888ToRGBA5551 (ColorConv) packs 5 bits per
color channel and the top alpha bit. -/
def rgba8888ToRGBA5551 (c : Nat) : Nat :=
  ((c >>> 3) &&& 0x1F) ||| (((c >>> 11) &&& 0x1F) <<< 5) |||
    (((c >>> 19) &&& 0x1F) <<< 10) ||| (((c >>> 31) &&& 0x1) <<< 15)

/-- Modelled from the spec: RGBA8888ToRGBA4444 (ColorConv) packs the top
nibble of each channel. -/
def rgba8888ToRGBA4444 (c : Nat) : Nat :=
  ((c >>> 4) &&& 0xF) ||| (((c >>> 12) &&& 0xF) <<< 4) |||
    (((c >>> 20) &&& 0xF) <<< 8) ||| (((c >>> 28) &&& 0xF) <<< 12)

/-- Modelled from the spec: Vec4 ToRGBA packs the low byte of each channel
into a 32-bit RGBA word. -/
def toRGBA (c : Vec4i) : Nat :=
  (c.r.toNat % 256) ||| ((c.g.toNat % 256) <<< 8) |||
    ((c.b.toNat % 256) <<< 16) ||| ((c.a.toNat % 256) <<< 24)

/-- A color or depth buffer addressed by drawing coordinates. -/
def Buffer : Type := Int → Int → Nat

/-- The keep-old mask before format adjustment: starts all ones (keep
everything), the clear-mode color/alpha masks clear the bytes that are to
be written, and the pixel write mask is respected in clear mode (ORed in). -/
def clearKeepOldMask (g : GState) : Nat :=
  let keep0 : Nat := 0xFFFFFFFF
  let keep1 := if g.clearModeColorMask then keep0 &&& 0xFF000000 else keep0
  let keep2 := if g.clearModeAlphaMask then keep1 &&& 0x00FFFFFF else keep1
  keep2 ||| g.colorMask

/-- The keep-old mask folded to the framebuffer format: for 16-bit formats
a nonzero mask is converted to the packed format with the high half forced
to ones. -/
def clearKeepOldMaskFmt (g : GState) : Nat :=
  let m := clearKeepOldMask g
  match g.fbFormat with
  | GEBufferFormat.format565 => if m = 0 then 0 else 0xFFFF0000 ||| rgba8888ToRGB565 m
  | GEBufferFormat.format5551 => if m = 0 then 0 else 0xFFFF0000 ||| rgba8888ToRGBA5551 m
  | GEBufferFormat.format4444 => if m = 0 then 0 else 0xFFFF0000 ||| rgba8888ToRGBA4444 m
  | GEBufferFormat.format8888 => m

/-- The clamped minimum x bound of ClearRectangle in screen coordinates
(rounded down to 16-subpixel alignment, clamped to the scissor left). -/
def clearRectMinX (g : GState) (v0 v1 : VertexData) : Int :=
  max (alignDown16 (min v0.screenpos.x v1.screenpos.x)) (drawingToScreen g.scissorX1)

/-- The clamped minimum y bound of ClearRectangle in screen coordinates. -/
def clearRectMinY (g : GState) (v0 v1 : VertexData) : Int :=
  max (alignDown16 (min v0.screenpos.y v1.screenpos.y)) (drawingToScreen g.scissorY1)

/-- The clamped maximum x bound of ClearRectangle in screen coordinates. -/
def clearRectMaxX (g : GState) (v0 v1 : VertexData) : Int :=
  max 0 (min (alignDown16 (max v0.screenpos.x v1.screenpos.x + 0xF))
    (drawingToScreen g.scissorX2 + 16))

/-- The clamped maximum y bound of ClearRectangle in screen coordinates. -/
def clearRectMaxY (g : GState) (v0 v1 : VertexData) : Int :=
  max 0 (min (alignDown16 (max v0.screenpos.y v1.screenpos.y + 0xF))
    (drawingToScreen g.scissorY2 + 16))

/-- The width of the cleared rectangle in pixels. -/
def clearRectW (g : GState) (v0 v1 : VertexData) : Int :=
  (clearRectMaxX g v0 v1 - clearRectMinX g v0 v1) / 16

/-- ClearRectangle: returns the framebuffer and depthbuffer after the
clear.  Bounds are rounded outward to 16-subpixel alignment, clamped to the
scissor rectangle, and converted to drawing coordinates; the depth
rectangle is written when the clear-mode depth mask is enabled; the color
rectangle is fully overwritten when nothing is kept, merged under the mask
when the mask is partial, and untouched when the mask keeps everything. -/
def clearRectangle (g : GState) (v0 v1 : VertexData) (fb depth : Buffer) : Buffer × Buffer :=
  let px := screenToDrawing (clearRectMinX g v0 v1)
  let py := screenToDrawing (clearRectMinY g v0 v1)
  let pendY := screenToDrawing (clearRectMaxY g v0 v1)
  let w := clearRectW g v0 v1
  if w ≤ 0 then (fb, depth)
  else
    let z := v1.screenpos.z
    let depth2 := if g.clearModeDepthMask then
        (fun x y => if px ≤ x ∧ x < px + w ∧ py ≤ y ∧ y < pendY then z else depth x y)
      else depth
    let keepOldMask := clearKeepOldMaskFmt g
    let newColor := toRGBA v1.color0
    let newColor16 := match g.fbFormat with
      | GEBufferFormat.format565 => rgba8888ToRGB565 newColor
      | GEBufferFormat.format5551 => rgba8888ToRGBA5551 newColor
      | GEBufferFormat.format4444 => rgba8888ToRGBA4444 newColor
      | GEBufferFormat.format8888 => 0
    let fillColor := if g.fbFormat = GEBufferFormat.format8888 then newColor else newColor16
    let fb2 :=
      if keepOldMask = 0 then
        (fun x y => if px ≤ x ∧ x < px + w ∧ py ≤ y ∧ y < pendY then fillColor else fb x y)
      else if keepOldMask ≠ 0xFFFFFFFF then
        (fun x y => if px ≤ x ∧ x < px + w ∧ py ≤ y ∧ y < pendY then
            (fb x y &&& keepOldMask) ||| (fillColor &&& (keepOldMask ^^^ 0xFFFFFFFF))
          else fb x y)
      else fb
    (fb2, depth2)

/-- Example graphics state: scissor rectangle from pixel (0,0) to
(100,100), Gouraud shading, fog enabled, clear mode off. -/
def gExample : GState :=
  { scissorX1 := 0, scissorY1 := 0, scissorX2 := 100, scissorY2 := 100
    shadeGouraud := true, clearMode := false, fogEnabled := true
    clearModeColorMask := false, clearModeAlphaMask := false, clearModeDepthMask := true
    colorMask := 0, fbFormat := GEBufferFormat.format8888 }

/-- Example vertex at a 12.4 screen position with a given depth and fog
depth. -/
def vertexAt (x y : Int) (z : Nat) (fog : Rat) : VertexData :=
  { screenpos := { x := x, y := y, z := z }
    color0 := { r := 255, g := 255, b := 255, a := 255 }
    color1 := { r := 0, g := 0, b := 0 }
    fogdepth := fog }

/-- Example buffer holding a recognizable value per cell. -/
def bufExample : Buffer := fun x y => (x + 2 * y).toNat

/-- One directed triangle edge strictly separates the triangle from the
scissor window: all four corners of the window (which spans 16*x1 to
16*x2 + 15 in subpixels, and likewise in y) lie strictly on the negative
side of the edge, while the covered region of a counter-clockwise triangle
lies where every edge function is non-negative. -/
def edgeSeparatesScissor (g : GState) (a b : ScreenPos) : Prop :=
  edgeFunction a b (drawingToScreen g.scissorX1) (drawingToScreen g.scissorY1) < 0 ∧
  edgeFunction a b (drawingToScreen g.scissorX2 + 15) (drawingToScreen g.scissorY1) < 0 ∧
  edgeFunction a b (drawingToScreen g.scissorX1) (drawingToScreen g.scissorY2 + 15) < 0 ∧
  edgeFunction a b (drawingToScreen g.scissorX2 + 15) (drawingToScreen g.scissorY2 + 15) < 0

/-- The triangle lies entirely outside the scissor rectangle, by the
separating-axis characterization of a convex hull against an axis-aligned
rectangle: either all three vertices lie beyond one side of the window, or
all four window corners lie strictly on the outer side of one triangle
edge.  Every triangle whose closed hull misses the closed window satisfies
one of these cases (a degenerate triangle separated along its own line
direction falls under the side cases). -/
def entirelyOutsideScissor (g : GState) (v0 v1 v2 : VertexData) : Prop :=
  (v0.screenpos.x < drawingToScreen g.scissorX1 ∧ v1.screenpos.x < drawingToScreen g.scissorX1 ∧
    v2.screenpos.x < drawingToScreen g.scissorX1) ∨
  (drawingToScreen g.scissorX2 + 15 < v0.screenpos.x ∧
    drawingToScreen g.scissorX2 + 15 < v1.screenpos.x ∧
    drawingToScreen g.scissorX2 + 15 < v2.screenpos.x) ∨
  (v0.screenpos.y < drawingToScreen g.scissorY1 ∧ v1.screenpos.y < drawingToScreen g.scissorY1 ∧
    v2.screenpos.y < drawingToScreen g.scissorY1) ∨
  (drawingToScreen g.scissorY2 + 15 < v0.screenpos.y ∧
    drawingToScreen g.scissorY2 + 15 < v1.screenpos.y ∧
    drawingToScreen g.scissorY2 + 15 < v2.screenpos.y) ∨
  edgeSeparatesScissor g v1.screenpos v2.screenpos ∨
  edgeSeparatesScissor g v2.screenpos v0.screenpos ∨
  edgeSeparatesScissor g v0.screenpos v1.screenpos

/- ---------------------------------------------------------------------
Theorems.
--------------------------------------------------------------------- -/

/-- Sign structure of twos-complement OR: the result is non-negative exactly
when both operands are.  This is what lets one OR fold several sign tests
into a single test. -/
theorem intOr_nonneg_iff (x y : Int) : 0 ≤ intOr x y ↔ 0 ≤ x ∧ 0 ≤ y := by
  cases x <;> cases y <;>
    simp [intOr, Int.negSucc_lt_zero, Int.ofNat_nonneg, not_le.mpr (Int.negSucc_lt_zero _)]

/-- OR of a 32-bit value into an all-ones 32-bit mask leaves the mask all
ones. -/
theorem lor_ones32 (m : Nat) (h : m < 4294967296) : 4294967295 ||| m = 4294967295 := by
  apply Nat.eq_of_testBit_eq
  intro i
  rw [Nat.testBit_lor]
  rcases lt_or_ge i 32 with hi | hi
  · have h1 : Nat.testBit 4294967295 i = true := by
      have h2 : (4294967295 : Nat) = 2 ^ 32 - 1 := by norm_num
      rw [h2, Nat.testBit_two_pow_sub_one]
      simpa using hi
    simp [h1]
  · have h3 : m < 2 ^ i := by
      calc m < 4294967296 := h
        _ = 2 ^ 32 := by norm_num
        _ ≤ 2 ^ i := Nat.pow_le_pow_right (by norm_num) hi
    simp [Nat.testBit_lt_two_pow h3]

/-- C2: in the compiled fog stage, every clamped 8-bit color channel c, fog
color channel f and fog factor w in [0,255] produce exactly the fixed-point
blend (c*w + f*(255-w)) divided by 255 with the bit trick: unsigned
multiply-high by 0x8081 and a further right shift by 7 (23 bits in total),
and the alpha channel passes through the stage unchanged. -/
theorem c2_fog_bit_trick (c f w : Nat) (hc : c ≤ 255) (hf : f ≤ 255) (hw : w ≤ 255)
    (color : Vec4i) (fogColor : Vec3i) :
    fogChannel c f w = ((c * w + f * (255 - w)) * 0x8081) / 2 ^ 23 ∧
    (applyFog color fogColor w).a = color.a := by
  constructor
  · have h1 : c * w < 65536 := by
      have := Nat.mul_le_mul hc hw
      omega
    have h2 : f * (255 - w) < 65536 := by
      have := Nat.mul_le_mul hf (Nat.sub_le 255 w)
      omega
    have h3 : c * w + f * (255 - w) ≤ 65025 := by
      have h4 : c * w ≤ 255 * w := Nat.mul_le_mul_right w hc
      have h5 : f * (255 - w) ≤ 255 * (255 - w) := Nat.mul_le_mul_right (255 - w) hf
      have h6 : 255 * w + 255 * (255 - w) = 255 * 255 := by omega
      omega
    simp only [fogChannel, pmullw, psubusw, paddusw, pmulhuw]
    rw [Nat.mod_eq_of_lt h1, Nat.mod_eq_of_lt h2, min_eq_left (by omega)]
    rw [Nat.div_div_eq_div_mul]
    norm_num
  · rfl

/-- Witness for c2_fog_bit_trick at c = 200, f = 100, w = 128. -/
theorem c2_fog_bit_trick_witness :
    fogChannel 200 100 128 = ((200 * 128 + 100 * (255 - 128)) * 0x8081) / 2 ^ 23 ∧
    (applyFog { r := 10, g := 20, b := 30, a := 40 } { r := 1, g := 2, b := 3 } 128).a =
      ({ r := 10, g := 20, b := 30, a := 40 } : Vec4i).a :=
  c2_fog_bit_trick 200 100 128 (by decide) (by decide) (by decide)
    { r := 10, g := 20, b := 30, a := 40 } { r := 1, g := 2, b := 3 }

/-- C3: the saturating stencil increment and decrement per framebuffer
format, for every starting stencil byte s: no-ops in 565; jam to 0xFF / 0x00
in 5551; a 0x11 step with a clamp at 0xF0 / 0x11 in 4444 (the 8-bit add
wraps mod 256, which only matters at s = 0xEF); a 1 step with a clamp at
0xFF / 0x00 in 8888. -/
theorem c3_stencil_saturation (ref s : Nat) (hs : s < 256) :
    (applyStencilOp GEBufferFormat.format565 GEStencilOp.incr ref s = s ∧
     applyStencilOp GEBufferFormat.format565 GEStencilOp.decr ref s = s) ∧
    (applyStencilOp GEBufferFormat.format5551 GEStencilOp.incr ref s = 0xFF ∧
     applyStencilOp GEBufferFormat.format5551 GEStencilOp.decr ref s = 0x00) ∧
    ((0xF0 ≤ s → applyStencilOp GEBufferFormat.format4444 GEStencilOp.incr ref s = s) ∧
     (s < 0xF0 → applyStencilOp GEBufferFormat.format4444 GEStencilOp.incr ref s = (s + 0x11) % 256) ∧
     applyStencilOp GEBufferFormat.format4444 GEStencilOp.incr ref 0xF0 = 0xF0 ∧
     (s < 0x11 → applyStencilOp GEBufferFormat.format4444 GEStencilOp.decr ref s = s) ∧
     (0x11 ≤ s → applyStencilOp GEBufferFormat.format4444 GEStencilOp.decr ref s = s - 0x11)) ∧
    ((s = 0xFF → applyStencilOp GEBufferFormat.format8888 GEStencilOp.incr ref s = 0xFF) ∧
     (s < 0xFF → applyStencilOp GEBufferFormat.format8888 GEStencilOp.incr ref s = s + 1) ∧
     (s = 0x00 → applyStencilOp GEBufferFormat.format8888 GEStencilOp.decr ref s = 0x00) ∧
     (0 < s → applyStencilOp GEBufferFormat.format8888 GEStencilOp.decr ref s = s - 1)) := by
  simp only [applyStencilOp]
  refine ⟨⟨trivial, trivial⟩, ⟨trivial, trivial⟩,
    ⟨fun h => ?_, fun h => ?_, by norm_num, fun h => ?_, fun h => ?_⟩,
    ⟨fun h => ?_, fun h => ?_, fun h => ?_, fun h => ?_⟩⟩ <;> split_ifs <;> omega

/-- Witness for c3_stencil_saturation at ref = 3, s = 0x52. -/
theorem c3_stencil_saturation_witness :
    (applyStencilOp GEBufferFormat.format565 GEStencilOp.incr 3 0x52 = 0x52 ∧
     applyStencilOp GEBufferFormat.format565 GEStencilOp.decr 3 0x52 = 0x52) ∧
    (applyStencilOp GEBufferFormat.format5551 GEStencilOp.incr 3 0x52 = 0xFF ∧
     applyStencilOp GEBufferFormat.format5551 GEStencilOp.decr 3 0x52 = 0x00) ∧
    ((0xF0 ≤ 0x52 → applyStencilOp GEBufferFormat.format4444 GEStencilOp.incr 3 0x52 = 0x52) ∧
     (0x52 < 0xF0 →
       applyStencilOp GEBufferFormat.format4444 GEStencilOp.incr 3 0x52 = (0x52 + 0x11) % 256) ∧
     applyStencilOp GEBufferFormat.format4444 GEStencilOp.incr 3 0xF0 = 0xF0 ∧
     (0x52 < 0x11 → applyStencilOp GEBufferFormat.format4444 GEStencilOp.decr 3 0x52 = 0x52) ∧
     (0x11 ≤ 0x52 →
       applyStencilOp GEBufferFormat.format4444 GEStencilOp.decr 3 0x52 = 0x52 - 0x11)) ∧
    ((0x52 = 0xFF → applyStencilOp GEBufferFormat.format8888 GEStencilOp.incr 3 0x52 = 0xFF) ∧
     (0x52 < 0xFF → applyStencilOp GEBufferFormat.format8888 GEStencilOp.incr 3 0x52 = 0x52 + 1) ∧
     (0x52 = 0x00 → applyStencilOp GEBufferFormat.format8888 GEStencilOp.decr 3 0x52 = 0x00) ∧
     (0 < 0x52 → applyStencilOp GEBufferFormat.format8888 GEStencilOp.decr 3 0x52 = 0x52 - 1)) :=
  c3_stencil_saturation 3 0x52 (by decide)

/-- C6: the no-stencil depth stage discards the pixel exactly when the
configured comparison of the incoming 16-bit depth against the stored
16-bit depth fails (nothing is stored on discard); with depth test LESS,
stored depth 100 and incoming depth 50 the pixel passes, and with depth
write enabled the stored depth becomes 50 (and stays 100 when depth write
is disabled). -/
theorem c6_depth_test (f : GEComparison) (w : Bool) (z old : Nat)
    (_hz : z < 65536) (_hold : old < 65536) :
    (depthStage f w z old = none ↔ depthTestPassed f z old = false) ∧
    depthTestPassed GEComparison.less z old = decide (z < old) ∧
    depthStage GEComparison.less true 50 100 = some 50 ∧
    depthStage GEComparison.less false 50 100 = some 100 := by
  refine ⟨?_, ?_, by decide, by decide⟩
  · unfold depthStage
    split_ifs with h <;> simp [h]
  · simp [depthTestPassed]

/-- Witness for c6_depth_test with the LESS scenario. -/
theorem c6_depth_test_witness :
    (depthStage GEComparison.less true 50 100 = none ↔
      depthTestPassed GEComparison.less 50 100 = false) ∧
    depthTestPassed GEComparison.less 50 100 = decide (50 < 100) ∧
    depthStage GEComparison.less true 50 100 = some 50 ∧
    depthStage GEComparison.less false 50 100 = some 100 :=
  c6_depth_test GEComparison.less true 50 100 (by decide) (by decide)

/-- Every source blend factor channel is at most 510 when the input colors
and the fix constant are 8-bit clamped (doubling can reach 510). -/
theorem getSourceFactor_le (factor : GEBlendSrcFactor) (source dst : Color4) (fixA : Color3)
    (hsa : source.a ≤ 255) (hdr : dst.r ≤ 255) (hdg : dst.g ≤ 255) (hdb : dst.b ≤ 255)
    (hda : dst.a ≤ 255) (hfr : fixA.r ≤ 255) (hfg : fixA.g ≤ 255) (hfb : fixA.b ≤ 255) :
    (getSourceFactor factor source dst fixA).r ≤ 510 ∧
    (getSourceFactor factor source dst fixA).g ≤ 510 ∧
    (getSourceFactor factor source dst fixA).b ≤ 510 := by
  cases factor <;> simp [getSourceFactor, assignToAll3] <;> omega

/-- Every destination blend factor channel is at most 510 when the input
colors and the fix constant are 8-bit clamped. -/
theorem getDestFactor_le (factor : GEBlendDstFactor) (source dst : Color4) (fixB : Color3)
    (hsr : source.r ≤ 255) (hsg : source.g ≤ 255) (hsb : source.b ≤ 255)
    (hsa : source.a ≤ 255) (hda : dst.a ≤ 255)
    (hfr : fixB.r ≤ 255) (hfg : fixB.g ≤ 255) (hfb : fixB.b ≤ 255) :
    (getDestFactor factor source dst fixB).r ≤ 510 ∧
    (getDestFactor factor source dst fixB).g ≤ 510 ∧
    (getDestFactor factor source dst fixB).b ≤ 510 := by
  cases factor <;> simp [getDestFactor, assignToAll3] <;> omega

/-- One blend half-term evaluates to ((2c+1)(2f+1))/1024: shifting the lane
left 4 and adding the 8 makes the 16-bit high-word shift come out as a
10-bit shift of the odd products. -/
theorem blendTerm_eq (x f : Nat) (hx : x ≤ 255) (hf : f ≤ 510) :
    blendTerm x f = (2 * x + 1) * (2 * f + 1) / 1024 := by
  unfold blendTerm pmulhw packs16
  rw [min_eq_left (show x ≤ 32767 by omega), min_eq_left (show f ≤ 32767 by omega)]
  have h1 : (16 * x + 8) * (16 * f + 8) = 64 * ((2 * x + 1) * (2 * f + 1)) := by ring
  rw [h1, show (65536 : Nat) = 64 * 1024 from by norm_num,
    Nat.mul_div_mul_left _ _ (by norm_num)]

/-- One blend half-term is bounded by 509 on clamped inputs, so the
saturating add of the two halves never saturates. -/
theorem blendTerm_le (x f : Nat) (hx : x ≤ 255) (hf : f ≤ 510) : blendTerm x f ≤ 509 := by
  rw [blendTerm_eq x f hx hf]
  calc (2 * x + 1) * (2 * f + 1) / 1024 ≤ 511 * 1021 / 1024 :=
        Nat.div_le_div_right (Nat.mul_le_mul (by omega) (by omega))
    _ = 509 := by norm_num

/-- C4: with the add blend equation, every RGB result channel equals
((2 src+1)(2 srcFactor+1))/1024 + ((2 dst+1)(2 dstFactor+1))/1024, the
16-bit fixed-point products with a rounding half-bit folded in; and in the
scenario src factor = src-alpha (128), dst factor = inverse-src-alpha
(127), src channel 200, dst channel 50, the result is within 1 of the
exact (200*128 + 50*127)/255. -/
theorem c4_blend_add_formula (srcSel : GEBlendSrcFactor) (dstSel : GEBlendDstFactor)
    (source dst : Color4) (fixA fixB : Color3)
    (hs : source.r ≤ 255 ∧ source.g ≤ 255 ∧ source.b ≤ 255 ∧ source.a ≤ 255)
    (hd : dst.r ≤ 255 ∧ dst.g ≤ 255 ∧ dst.b ≤ 255 ∧ dst.a ≤ 255)
    (hA : fixA.r ≤ 255 ∧ fixA.g ≤ 255 ∧ fixA.b ≤ 255)
    (hB : fixB.r ≤ 255 ∧ fixB.g ≤ 255 ∧ fixB.b ≤ 255) :
    ((alphaBlendingResult GEBlendMode.mulAndAdd srcSel dstSel fixA fixB source dst).r =
      (2 * source.r + 1) * (2 * (getSourceFactor srcSel source dst fixA).r + 1) / 1024 +
        (2 * dst.r + 1) * (2 * (getDestFactor dstSel source dst fixB).r + 1) / 1024 ∧
     (alphaBlendingResult GEBlendMode.mulAndAdd srcSel dstSel fixA fixB source dst).g =
      (2 * source.g + 1) * (2 * (getSourceFactor srcSel source dst fixA).g + 1) / 1024 +
        (2 * dst.g + 1) * (2 * (getDestFactor dstSel source dst fixB).g + 1) / 1024 ∧
     (alphaBlendingResult GEBlendMode.mulAndAdd srcSel dstSel fixA fixB source dst).b =
      (2 * source.b + 1) * (2 * (getSourceFactor srcSel source dst fixA).b + 1) / 1024 +
        (2 * dst.b + 1) * (2 * (getDestFactor dstSel source dst fixB).b + 1) / 1024) ∧
    ((alphaBlendingResult GEBlendMode.mulAndAdd GEBlendSrcFactor.srcAlpha
        GEBlendDstFactor.invSrcAlpha { r := 0, g := 0, b := 0 } { r := 0, g := 0, b := 0 }
        { r := 200, g := 200, b := 200, a := 128 } { r := 50, g := 50, b := 50, a := 0 }).r ≤
      (200 * 128 + 50 * 127) / 255 + 1 ∧
     (200 * 128 + 50 * 127) / 255 ≤
      (alphaBlendingResult GEBlendMode.mulAndAdd GEBlendSrcFactor.srcAlpha
        GEBlendDstFactor.invSrcAlpha { r := 0, g := 0, b := 0 } { r := 0, g := 0, b := 0 }
        { r := 200, g := 200, b := 200, a := 128 } { r := 50, g := 50, b := 50, a := 0 }).r + 1) := by
  obtain ⟨hs1, hs2, hs3, hs4⟩ := hs
  obtain ⟨hd1, hd2, hd3, hd4⟩ := hd
  obtain ⟨hA1, hA2, hA3⟩ := hA
  obtain ⟨hB1, hB2, hB3⟩ := hB
  obtain ⟨hsf1, hsf2, hsf3⟩ :=
    getSourceFactor_le srcSel source dst fixA hs4 hd1 hd2 hd3 hd4 hA1 hA2 hA3
  obtain ⟨hdf1, hdf2, hdf3⟩ :=
    getDestFactor_le dstSel source dst fixB hs1 hs2 hs3 hs4 hd4 hB1 hB2 hB3
  have key : ∀ cs cd ks kd : Nat, cs ≤ 255 → cd ≤ 255 → ks ≤ 510 → kd ≤ 510 →
      padds16 (blendTerm cs ks) (blendTerm cd kd) =
        (2 * cs + 1) * (2 * ks + 1) / 1024 + (2 * cd + 1) * (2 * kd + 1) / 1024 := by
    intro cs cd ks kd h1 h2 h3 h4
    have hb1 := blendTerm_le cs ks h1 h3
    have hb2 := blendTerm_le cd kd h2 h4
    unfold padds16
    rw [min_eq_left (by omega), blendTerm_eq cs ks h1 h3, blendTerm_eq cd kd h2 h4]
  exact ⟨⟨key _ _ _ _ hs1 hd1 hsf1 hdf1, key _ _ _ _ hs2 hd2 hsf2 hdf2,
    key _ _ _ _ hs3 hd3 hsf3 hdf3⟩, by decide⟩

/-- Witness for c4_blend_add_formula at the scenario colors. -/
theorem c4_blend_add_formula_witness :
    ((alphaBlendingResult GEBlendMode.mulAndAdd GEBlendSrcFactor.srcAlpha
        GEBlendDstFactor.invSrcAlpha { r := 0, g := 0, b := 0 } { r := 0, g := 0, b := 0 }
        { r := 200, g := 200, b := 200, a := 128 } { r := 50, g := 50, b := 50, a := 0 }).r =
      (2 * 200 + 1) * (2 * (getSourceFactor GEBlendSrcFactor.srcAlpha
          { r := 200, g := 200, b := 200, a := 128 } { r := 50, g := 50, b := 50, a := 0 }
          { r := 0, g := 0, b := 0 }).r + 1) / 1024 +
        (2 * 50 + 1) * (2 * (getDestFactor GEBlendDstFactor.invSrcAlpha
          { r := 200, g := 200, b := 200, a := 128 } { r := 50, g := 50, b := 50, a := 0 }
          { r := 0, g := 0, b := 0 }).r + 1) / 1024 ∧
     (alphaBlendingResult GEBlendMode.mulAndAdd GEBlendSrcFactor.srcAlpha
        GEBlendDstFactor.invSrcAlpha { r := 0, g := 0, b := 0 } { r := 0, g := 0, b := 0 }
        { r := 200, g := 200, b := 200, a := 128 } { r := 50, g := 50, b := 50, a := 0 }).g =
      (2 * 200 + 1) * (2 * (getSourceFactor GEBlendSrcFactor.srcAlpha
          { r := 200, g := 200, b := 200, a := 128 } { r := 50, g := 50, b := 50, a := 0 }
          { r := 0, g := 0, b := 0 }).g + 1) / 1024 +
        (2 * 50 + 1) * (2 * (getDestFactor GEBlendDstFactor.invSrcAlpha
          { r := 200, g := 200, b := 200, a := 128 } { r := 50, g := 50, b := 50, a := 0 }
          { r := 0, g := 0, b := 0 }).g + 1) / 1024 ∧
     (alphaBlendingResult GEBlendMode.mulAndAdd GEBlendSrcFactor.srcAlpha
        GEBlendDstFactor.invSrcAlpha { r := 0, g := 0, b := 0 } { r := 0, g := 0, b := 0 }
        { r := 200, g := 200, b := 200, a := 128 } { r := 50, g := 50, b := 50, a := 0 }).b =
      (2 * 200 + 1) * (2 * (getSourceFactor GEBlendSrcFactor.srcAlpha
          { r := 200, g := 200, b := 200, a := 128 } { r := 50, g := 50, b := 50, a := 0 }
          { r := 0, g := 0, b := 0 }).b + 1) / 1024 +
        (2 * 50 + 1) * (2 * (getDestFactor GEBlendDstFactor.invSrcAlpha
          { r := 200, g := 200, b := 200, a := 128 } { r := 50, g := 50, b := 50, a := 0 }
          { r := 0, g := 0, b := 0 }).b + 1) / 1024) ∧
    ((alphaBlendingResult GEBlendMode.mulAndAdd GEBlendSrcFactor.srcAlpha
        GEBlendDstFactor.invSrcAlpha { r := 0, g := 0, b := 0 } { r := 0, g := 0, b := 0 }
        { r := 200, g := 200, b := 200, a := 128 } { r := 50, g := 50, b := 50, a := 0 }).r ≤
      (200 * 128 + 50 * 127) / 255 + 1 ∧
     (200 * 128 + 50 * 127) / 255 ≤
      (alphaBlendingResult GEBlendMode.mulAndAdd GEBlendSrcFactor.srcAlpha
        GEBlendDstFactor.invSrcAlpha { r := 0, g := 0, b := 0 } { r := 0, g := 0, b := 0 }
        { r := 200, g := 200, b := 200, a := 128 } { r := 50, g := 50, b := 50, a := 0 }).r + 1) :=
  c4_blend_add_formula GEBlendSrcFactor.srcAlpha GEBlendDstFactor.invSrcAlpha
    { r := 200, g := 200, b := 200, a := 128 } { r := 50, g := 50, b := 50, a := 0 }
    { r := 0, g := 0, b := 0 } { r := 0, g := 0, b := 0 }
    (by refine ⟨?_, ?_, ?_, ?_⟩ <;> decide) (by refine ⟨?_, ?_, ?_, ?_⟩ <;> decide)
    (by refine ⟨?_, ?_, ?_⟩ <;> decide) (by refine ⟨?_, ?_, ?_⟩ <;> decide)

/-- C5 counterexample: with fog enabled and clear mode off, three vertices
carrying exactly the same fog depth 1/2 do not get a broadcast: noFog is
false, so the fog factor comes from the interpolation path (an interpolant
returning 42 is consumed) instead of any broadcast of the shared value. -/
theorem c5_fog_equal_counterexample :
    noFog false gExample (vertexAt 0 0 0 0) (vertexAt 16 0 0 0)
      (vertexAt 0 16 0 0) = false ∧
    laneFog false gExample (vertexAt 0 0 0 0) (vertexAt 16 0 0 0)
      (vertexAt 0 16 0 0) (fun _ => 42) 0 = 42 := by
  have h : noFog false gExample (vertexAt 0 0 0 0) (vertexAt 16 0 0 0)
      (vertexAt 0 16 0 0) = false := by decide
  exact ⟨h, by simp [laneFog, h]⟩

/-- C5 (amended): the flat-shading shortcut per attribute.  Primary and
secondary colors are broadcast exactly - the value of v2, equal to the
shared value - when the three vertices agree (clear mode or non-Gouraud
shading also force the flat path); the screen-space z is broadcast exactly
when the three z agree; fog has no equality shortcut - the interpolation is
skipped, with the constant factor 255, exactly when clear mode, fog
disabled, or every vertex fog depth is at least 1. -/
theorem c5_flat_broadcast_amended (clearMode : Bool) (g : GState) (v0 v1 v2 : VertexData)
    (interpC : Nat → Vec4i) (interpS : Nat → Vec3i) (interpF interpD : Nat → Nat) (i : Nat) :
    (v0.color0 = v1.color0 → v0.color0 = v2.color0 →
      lanePrimColor clearMode g v0 v1 v2 interpC i = v0.color0) ∧
    (v0.color1 = v1.color1 → v0.color1 = v2.color1 →
      laneSecColor clearMode g v0 v1 v2 interpS i = v0.color1) ∧
    (v0.screenpos.z = v1.screenpos.z → v0.screenpos.z = v2.screenpos.z →
      laneZ v0 v1 v2 interpD i = v0.screenpos.z) ∧
    (noFog clearMode g v0 v1 v2 = true ↔
      clearMode = true ∨ g.fogEnabled = false ∨
        (1 ≤ v0.fogdepth ∧ 1 ≤ v1.fogdepth ∧ 1 ≤ v2.fogdepth)) ∧
    (noFog clearMode g v0 v1 v2 = true → laneFog clearMode g v0 v1 v2 interpF i = 255) := by
  refine ⟨fun h1 h2 => ?_, fun h1 h2 => ?_, fun h1 h2 => ?_, ?_, fun h => ?_⟩
  · have h3 := h1.symm.trans h2
    have hf : flatColor0 clearMode g v0 v1 v2 = true := by simp [flatColor0, h1, h3]
    simp [lanePrimColor, hf, ← h2]
  · have h3 := h1.symm.trans h2
    have hf : flatColor1 clearMode g v0 v1 v2 = true := by simp [flatColor1, h1, h3]
    simp [laneSecColor, hf, ← h2]
  · have h3 := h1.symm.trans h2
    have hf : flatZ v0 v1 v2 = true := by simp [flatZ, h1, h3]
    simp [laneZ, hf, ← h2]
  · simp [noFog]
    tauto
  · simp [laneFog, h]

/-- Witness for c5_flat_broadcast_amended: one vertex used three times, in
clear mode, so every broadcast premise holds. -/
theorem c5_flat_broadcast_witness :
    lanePrimColor true gExample (vertexAt 0 0 5 (1/2)) (vertexAt 0 0 5 (1/2))
      (vertexAt 0 0 5 (1/2)) (fun _ => { r := 1, g := 2, b := 3, a := 4 }) 0 =
      (vertexAt 0 0 5 (1/2)).color0 ∧
    laneSecColor true gExample (vertexAt 0 0 5 (1/2)) (vertexAt 0 0 5 (1/2))
      (vertexAt 0 0 5 (1/2)) (fun _ => { r := 1, g := 2, b := 3 }) 0 =
      (vertexAt 0 0 5 (1/2)).color1 ∧
    laneZ (vertexAt 0 0 5 (1/2)) (vertexAt 0 0 5 (1/2)) (vertexAt 0 0 5 (1/2))
      (fun _ => 9) 0 = (vertexAt 0 0 5 (1/2)).screenpos.z ∧
    laneFog true gExample (vertexAt 0 0 5 (1/2)) (vertexAt 0 0 5 (1/2))
      (vertexAt 0 0 5 (1/2)) (fun _ => 9) 0 = 255 :=
  let thm := c5_flat_broadcast_amended true gExample (vertexAt 0 0 5 (1/2))
    (vertexAt 0 0 5 (1/2)) (vertexAt 0 0 5 (1/2))
    (fun _ => { r := 1, g := 2, b := 3, a := 4 }) (fun _ => { r := 1, g := 2, b := 3 })
    (fun _ => 9) (fun _ => 9) 0
  ⟨thm.1 rfl rfl, thm.2.1 rfl rfl, thm.2.2.1 rfl rfl, thm.2.2.2.2 rfl⟩

/-- C1 (amended): DrawTriangle returns before any rasterization work - the
drawPixel trace is empty and no function resolution or slice event occurs -
when the triangle is not wound counter-clockwise (negative cross product)
or when all three vertices have identical screen xy coordinates.  A
zero-area triangle with distinct collinear vertices is not dropped by these
checks; see the counterexample. -/
theorem c1_degenerate_early_return (g : GState) (v0 v1 v2 : VertexData) (n : Nat)
    (h : crossTerm v0 v1 v2 < 0 ∨
      (v0.screenpos.x = v1.screenpos.x ∧ v0.screenpos.y = v1.screenpos.y ∧
        v0.screenpos.x = v2.screenpos.x ∧ v0.screenpos.y = v2.screenpos.y)) :
    drawTrianglePixels g v0 v1 v2 = [] ∧ drawTriangleEvents g v0 v1 v2 n = [] := by
  rcases h with h | ⟨h1, h2, h3, h4⟩
  · constructor
    · simp only [drawTrianglePixels]
      rw [if_pos h]
    · simp only [drawTriangleEvents]
      rw [if_pos h]
  · have hB : v0.screenpos.x - v1.screenpos.x = 0 ∧ v0.screenpos.y - v1.screenpos.y = 0 ∧
        v0.screenpos.x - v2.screenpos.x = 0 ∧ v0.screenpos.y - v2.screenpos.y = 0 := by
      refine ⟨by omega, by omega, by omega, by omega⟩
    obtain ⟨e1, e2, e3, e4⟩ := hB
    have hc : ¬ crossTerm v0 v1 v2 < 0 := by
      simp only [crossTerm]
      rw [e1, e2]
      simp
    constructor
    · simp only [drawTrianglePixels]
      rw [if_neg hc, if_pos ⟨e1, e2, e3, e4⟩]
    · simp only [drawTriangleEvents]
      rw [if_neg hc, if_pos ⟨e1, e2, e3, e4⟩]

/-- Witness for c1_degenerate_early_return: a clockwise-wound triangle. -/
theorem c1_degenerate_early_return_witness :
    drawTrianglePixels gExample (vertexAt 0 0 0 1) (vertexAt 0 64 0 1)
      (vertexAt 64 64 0 1) = [] ∧
    drawTriangleEvents gExample (vertexAt 0 0 0 1) (vertexAt 0 64 0 1)
      (vertexAt 64 64 0 1) 3 = [] :=
  c1_degenerate_early_return gExample (vertexAt 0 0 0 1) (vertexAt 0 64 0 1)
    (vertexAt 64 64 0 1) 3 (Or.inl (by decide))

/-- C1 counterexample: the triangle with distinct collinear vertices at
subpixel positions (0,7), (16,7), (32,7) has zero screen-space area (cross
product 0), yet DrawTriangle does not return early: the traversal invokes
the compiled pixel function on the three pixels whose centers lie exactly
on the line, and the function-resolution events occur. -/
theorem c1_zero_area_drawn_counterexample :
    crossTerm (vertexAt 0 7 0 1) (vertexAt 16 7 0 1) (vertexAt 32 7 0 1) = 0 ∧
    drawTrianglePixels gExample (vertexAt 0 7 0 1) (vertexAt 16 7 0 1) (vertexAt 32 7 0 1) =
      [(0, 0), (1, 0), (2, 0)] ∧
    drawTriangleEvents gExample (vertexAt 0 7 0 1) (vertexAt 16 7 0 1)
      (vertexAt 32 7 0 1) 1 ≠ [] :=
  ⟨by decide, by decide, by decide⟩

/-- When the bounding box sits left of the scissor window, clamping makes
the range empty. -/
theorem bboxOutside_left (m b s1 s2 : Int) (hb : b < drawingToScreen s1) :
    min (orLow15 b) (drawingToScreen s2 + 15) < max (alignDown16 m) (drawingToScreen s1) := by
  unfold orLow15 alignDown16 drawingToScreen at *
  omega

/-- When the bounding box sits right of the scissor window, clamping makes
the range empty. -/
theorem bboxOutside_right (m b s1 s2 : Int) (hm : drawingToScreen s2 + 15 < m) :
    min (orLow15 b) (drawingToScreen s2 + 15) < max (alignDown16 m) (drawingToScreen s1) := by
  unfold orLow15 alignDown16 drawingToScreen at *
  omega

/-- OR with zero is the identity (used to resolve the fourth scissor lane
when the row is not clipped). -/
theorem intOr_zero (a : Int) : intOr a 0 = a := by
  cases a with
  | ofNat m =>
    show Int.ofNat (m ||| 0) = Int.ofNat m
    rw [Nat.or_zero]
  | negSucc m =>
    show Int.negSucc (m - (m &&& 0)) = Int.negSucc m
    rw [Nat.and_zero, Nat.sub_zero]

/-- An affine function that is strictly negative at the four corners of an
axis-aligned rectangle is strictly negative at every point of the
rectangle. -/
theorem affine_rect_bound (al be ga x1 x2 y1 y2 qx qy : Int)
    (hx1 : x1 ≤ qx) (hx2 : qx ≤ x2) (hy1 : y1 ≤ qy) (hy2 : qy ≤ y2)
    (h11 : al * x1 + be * y1 + ga < 0) (h21 : al * x2 + be * y1 + ga < 0)
    (h12 : al * x1 + be * y2 + ga < 0) (h22 : al * x2 + be * y2 + ga < 0) :
    al * qx + be * qy + ga < 0 := by
  rcases le_or_lt 0 al with hal | hal <;> rcases le_or_lt 0 be with hbe | hbe
  · have e1 := mul_le_mul_of_nonneg_left hx2 hal
    have e2 := mul_le_mul_of_nonneg_left hy2 hbe
    linarith
  · have e1 := mul_le_mul_of_nonneg_left hx2 hal
    have e2 := mul_le_mul_of_nonpos_left hy1 hbe.le
    linarith
  · have e1 := mul_le_mul_of_nonpos_left hx1 hal.le
    have e2 := mul_le_mul_of_nonneg_left hy2 hbe
    linarith
  · have e1 := mul_le_mul_of_nonpos_left hx1 hal.le
    have e2 := mul_le_mul_of_nonpos_left hy1 hbe.le
    linarith

/-- The clamped bounding-box minimum is 16-aligned: it is the maximum of an
aligned-down coordinate and a scissor bound converted from whole pixels. -/
theorem alignDown16_max_mod (t s : Int) :
    max (alignDown16 t) (drawingToScreen s) % 16 = 0 := by
  rcases max_choice (alignDown16 t) (drawingToScreen s) with h | h <;> rw [h] <;>
    simp only [alignDown16, drawingToScreen] <;> omega

/-- What a non-negative scissor-lane value says about the lane position: a
right-column lane (x offset 23) is within the x range, and a bottom-row
lane (y offset 23) is within the y range. -/
theorem scissorLane_bounds (x1 x2 y2 curY : Int) (kx j : Nat) (hj : j < 4)
    (h : 0 ≤ scissorLane x1 x2 y2 curY kx j) :
    (laneOffX j = 23 → x1 + 32 * (kx : Int) + 16 ≤ x2) ∧
    (laneOffY j = 23 → curY + 16 ≤ y2) := by
  interval_cases j
  · exact ⟨fun h23 => absurd h23 (by decide), fun h23 => absurd h23 (by decide)⟩
  · simp only [scissorLane] at h
    exact ⟨fun _ => by omega, fun h23 => absurd h23 (by decide)⟩
  · simp only [scissorLane] at h
    refine ⟨fun h23 => absurd h23 (by decide), fun _ => ?_⟩
    revert h
    split_ifs with hcl <;> intro h <;> omega
  · simp only [scissorLane] at h
    have h4 : 0 ≤ intOr (x2 - x1 - 16) (if y2 < curY + 16 then -1 else 0) := by omega
    rw [intOr_nonneg_iff] at h4
    obtain ⟨ha, hs⟩ := h4
    have hrow : ¬ y2 < curY + 16 := by
      revert hs
      split_ifs with hcl <;> intro hs
      · omega
      · exact hcl
    rw [if_neg hrow, intOr_zero] at h
    exact ⟨fun _ => by omega, fun _ => by omega⟩

/-- A point of the scissor window cannot have all three edge functions
non-negative when one triangle edge strictly separates the window. -/
theorem cornerSeparated_reject (g : GState) (v0 v1 v2 : VertexData) (qx qy : Int)
    (hsep : edgeSeparatesScissor g v1.screenpos v2.screenpos ∨
      edgeSeparatesScissor g v2.screenpos v0.screenpos ∨
      edgeSeparatesScissor g v0.screenpos v1.screenpos)
    (hq1 : drawingToScreen g.scissorX1 ≤ qx) (hq2 : qx ≤ drawingToScreen g.scissorX2 + 15)
    (hq3 : drawingToScreen g.scissorY1 ≤ qy) (hq4 : qy ≤ drawingToScreen g.scissorY2 + 15)
    (hw0 : 0 ≤ edgeFunction v1.screenpos v2.screenpos qx qy)
    (hw1 : 0 ≤ edgeFunction v2.screenpos v0.screenpos qx qy)
    (hw2 : 0 ≤ edgeFunction v0.screenpos v1.screenpos qx qy) : False := by
  rcases hsep with hs | hs | hs
  · obtain ⟨h11, h21, h12, h22⟩ := hs
    simp only [edgeFunction] at h11 h21 h12 h22 hw0
    exact absurd (affine_rect_bound _ _ _ _ _ _ _ qx qy hq1 hq2 hq3 hq4 h11 h21 h12 h22)
      (not_lt.mpr hw0)
  · obtain ⟨h11, h21, h12, h22⟩ := hs
    simp only [edgeFunction] at h11 h21 h12 h22 hw1
    exact absurd (affine_rect_bound _ _ _ _ _ _ _ qx qy hq1 hq2 hq3 hq4 h11 h21 h12 h22)
      (not_lt.mpr hw1)
  · obtain ⟨h11, h21, h12, h22⟩ := hs
    simp only [edgeFunction] at h11 h21 h12 h22 hw2
    exact absurd (affine_rect_bound _ _ _ _ _ _ _ qx qy hq1 hq2 hq3 hq4 h11 h21 h12 h22)
      (not_lt.mpr hw2)

/-- Inside a slice whose bounds sit within the scissor window (left bounds
16-aligned and at least the window minimum, right bounds at most the
window maximum), every lane mask is negative when a triangle edge strictly
separates the window: an uncovered lane has a negative edge value, a
covered lane would be a window point with all three edge functions
non-negative.  The 16-alignment pins lane centers to 7 mod 16, which keeps
them inside the window even where the quad overhangs the right or bottom
bound. -/
theorem maskLane_neg_of_sep (g : GState) (v0 v1 v2 : VertexData) (x1 y1 x2 y2 : Int)
    (ky kx j : Nat)
    (hsep : edgeSeparatesScissor g v1.screenpos v2.screenpos ∨
      edgeSeparatesScissor g v2.screenpos v0.screenpos ∨
      edgeSeparatesScissor g v0.screenpos v1.screenpos)
    (hx1lo : drawingToScreen g.scissorX1 ≤ x1) (hx1mod : x1 % 16 = 0)
    (hx2hi : x2 ≤ drawingToScreen g.scissorX2 + 15)
    (hy1lo : drawingToScreen g.scissorY1 ≤ y1) (hy1mod : y1 % 16 = 0)
    (hy2hi : y2 ≤ drawingToScreen g.scissorY2 + 15)
    (hcx : x1 + 32 * (kx : Int) ≤ x2) (hcy : y1 + 32 * (ky : Int) ≤ y2)
    (hj : j < 4) :
    makeMaskLane v0 v1 v2 x1 y1 x2 y2 ky kx j < 0 := by
  by_contra hcon
  push_neg at hcon
  simp only [makeMaskLane] at hcon
  rw [intOr_nonneg_iff, intOr_nonneg_iff, intOr_nonneg_iff] at hcon
  obtain ⟨⟨⟨hE0, hE1⟩, hE2⟩, hSc⟩ := hcon
  obtain ⟨hbx, hby⟩ := scissorLane_bounds x1 x2 y2 (y1 + 32 * (ky : Int)) kx j hj hSc
  have hox : laneOffX j = 7 ∨ laneOffX j = 23 := by
    unfold laneOffX
    split_ifs <;> simp
  have hoy : laneOffY j = 7 ∨ laneOffY j = 23 := by
    unfold laneOffY
    split_ifs <;> simp
  have hqx1 : drawingToScreen g.scissorX1 ≤ x1 + 32 * (kx : Int) + laneOffX j := by
    rcases hox with h | h <;> rw [h] <;> omega
  have hqy1 : drawingToScreen g.scissorY1 ≤ y1 + 32 * (ky : Int) + laneOffY j := by
    rcases hoy with h | h <;> rw [h] <;> omega
  have hqx2 : x1 + 32 * (kx : Int) + laneOffX j ≤ drawingToScreen g.scissorX2 + 15 := by
    simp only [drawingToScreen] at hx2hi ⊢
    rcases hox with h | h
    · rw [h]
      omega
    · rw [h]
      have h16 := hbx h
      omega
  have hqy2 : y1 + 32 * (ky : Int) + laneOffY j ≤ drawingToScreen g.scissorY2 + 15 := by
    simp only [drawingToScreen] at hy2hi ⊢
    rcases hoy with h | h
    · rw [h]
      omega
    · rw [h]
      have h16 := hby h
      omega
  have hw0 : 0 ≤ edgeFunction v1.screenpos v2.screenpos
      (x1 + 32 * (kx : Int) + laneOffX j) (y1 + 32 * (ky : Int) + laneOffY j) := by
    revert hE0
    split_ifs <;> intro hE0 <;> omega
  have hw1 : 0 ≤ edgeFunction v2.screenpos v0.screenpos
      (x1 + 32 * (kx : Int) + laneOffX j) (y1 + 32 * (ky : Int) + laneOffY j) := by
    revert hE1
    split_ifs <;> intro hE1 <;> omega
  have hw2 : 0 ≤ edgeFunction v0.screenpos v1.screenpos
      (x1 + 32 * (kx : Int) + laneOffX j) (y1 + 32 * (ky : Int) + laneOffY j) := by
    revert hE2
    split_ifs <;> intro hE2 <;> omega
  exact cornerSeparated_reject g v0 v1 v2 _ _ hsep hqx1 hqx2 hqy1 hqy2 hw0 hw1 hw2

/-- A slice whose bounds sit within the scissor window draws nothing when a
triangle edge strictly separates the window from the triangle. -/
theorem slice_empty_of_edgeSeparates (g : GState) (v0 v1 v2 : VertexData) (x1 y1 x2 y2 : Int)
    (hsep : edgeSeparatesScissor g v1.screenpos v2.screenpos ∨
      edgeSeparatesScissor g v2.screenpos v0.screenpos ∨
      edgeSeparatesScissor g v0.screenpos v1.screenpos)
    (hx1lo : drawingToScreen g.scissorX1 ≤ x1) (hx1mod : x1 % 16 = 0)
    (hx2hi : x2 ≤ drawingToScreen g.scissorX2 + 15)
    (hy1lo : drawingToScreen g.scissorY1 ≤ y1) (hy1mod : y1 % 16 = 0)
    (hy2hi : y2 ≤ drawingToScreen g.scissorY2 + 15) :
    drawTriangleSlicePixels v0 v1 v2 x1 y1 x2 y2 = [] := by
  rw [List.eq_nil_iff_forall_not_mem]
  intro p hp
  simp only [drawTriangleSlicePixels, List.mem_flatMap] at hp
  obtain ⟨ky, hky, kx, hkx, hq⟩ := hp
  rw [List.mem_range] at hky hkx
  simp only [stepCount32] at hky hkx
  have hcy : y1 + 32 * (ky : Int) ≤ y2 := by omega
  have hcx : x1 + 32 * (kx : Int) ≤ x2 := by omega
  simp only [quadPixels] at hq
  by_cases ha : anyMask (makeMaskLane v0 v1 v2 x1 y1 x2 y2 ky kx)
  · rw [if_pos ha, List.mem_filterMap] at hq
    obtain ⟨j, hj, heq⟩ := hq
    rw [List.mem_range] at hj
    have hneg := maskLane_neg_of_sep g v0 v1 v2 x1 y1 x2 y2 ky kx j hsep
      hx1lo hx1mod hx2hi hy1lo hy1mod hy2hi hcx hcy hj
    rw [if_neg (by omega)] at heq
    exact Option.noConfusion heq
  · rw [if_neg ha] at hq
    exact List.not_mem_nil _ hq

/-- C8: a triangle entirely outside the scissor rectangle produces an empty
drawPixel trace (whether it is rejected by the empty clamped bounding box
or, across a window corner, by the coverage masks inside the traversal);
inside the traversal the scissor value is folded into each lane mask by
bitwise OR with the biased edge values, so the single sign test rejects a
lane when any contributor is negative: a lane with a negative mask value is
never drawn, and the OR of the three biased edge values with the scissor
value is non-negative exactly when all four contributors are. -/
theorem c8_scissor_fold (g : GState) (v0 v1 v2 : VertexData) (x1 y1 x2 y2 : Int)
    (h : entirelyOutsideScissor g v0 v1 v2) :
    drawTrianglePixels g v0 v1 v2 = [] ∧
    (∀ ky kx i : Nat, i < 4 → makeMaskLane v0 v1 v2 x1 y1 x2 y2 ky kx i < 0 →
      (sliceColX x1 kx + ((i % 2 : Nat) : Int),
        screenToDrawing (y1 + 32 * (ky : Int)) + ((i / 2 : Nat) : Int)) ∉
        quadPixels v0 v1 v2 x1 y1 x2 y2 ky kx) ∧
    (∀ a b c d : Int, 0 ≤ intOr (intOr (intOr a b) c) d ↔
      (0 ≤ a ∧ 0 ≤ b ∧ 0 ≤ c ∧ 0 ≤ d)) := by
  refine ⟨?_, ?_, ?_⟩
  · simp only [entirelyOutsideScissor] at h
    simp only [drawTrianglePixels]
    split_ifs with hA hB hC
    · rfl
    · rfl
    · rfl
    · rcases h with ⟨h1, h2, h3⟩ | ⟨h1, h2, h3⟩ | ⟨h1, h2, h3⟩ | ⟨h1, h2, h3⟩ | hs | hs | hs
      · exact absurd (Or.inl (bboxOutside_left _ _ _ _ (by omega))) hC
      · exact absurd (Or.inl (bboxOutside_right _ _ _ _ (by omega))) hC
      · exact absurd (Or.inr (bboxOutside_left _ _ _ _ (by omega))) hC
      · exact absurd (Or.inr (bboxOutside_right _ _ _ _ (by omega))) hC
      · exact slice_empty_of_edgeSeparates g v0 v1 v2 _ _ _ _ (Or.inl hs)
          (le_max_right _ _) (alignDown16_max_mod _ _) (min_le_right _ _)
          (le_max_right _ _) (alignDown16_max_mod _ _) (min_le_right _ _)
      · exact slice_empty_of_edgeSeparates g v0 v1 v2 _ _ _ _ (Or.inr (Or.inl hs))
          (le_max_right _ _) (alignDown16_max_mod _ _) (min_le_right _ _)
          (le_max_right _ _) (alignDown16_max_mod _ _) (min_le_right _ _)
      · exact slice_empty_of_edgeSeparates g v0 v1 v2 _ _ _ _ (Or.inr (Or.inr hs))
          (le_max_right _ _) (alignDown16_max_mod _ _) (min_le_right _ _)
          (le_max_right _ _) (alignDown16_max_mod _ _) (min_le_right _ _)
  · intro ky kx i hi hneg hmem
    simp only [quadPixels] at hmem
    by_cases ha : anyMask (makeMaskLane v0 v1 v2 x1 y1 x2 y2 ky kx)
    · rw [if_pos ha, List.mem_filterMap] at hmem
      obtain ⟨j, hj, heq⟩ := hmem
      rw [List.mem_range] at hj
      by_cases hj0 : 0 ≤ makeMaskLane v0 v1 v2 x1 y1 x2 y2 ky kx j
      · rw [if_pos hj0, Option.some.injEq, Prod.mk.injEq] at heq
        obtain ⟨e1, e2⟩ := heq
        have hij : j = i := by omega
        rw [hij] at hj0
        omega
      · rw [if_neg hj0] at heq
        exact Option.noConfusion heq
    · rw [if_neg ha] at hmem
      exact List.not_mem_nil _ hmem
  · intro a b c d
    rw [intOr_nonneg_iff, intOr_nonneg_iff, intOr_nonneg_iff]
    tauto

/-- Witness for c8_scissor_fold: a counter-clockwise triangle entirely
outside the scissor window across its bottom-left corner (no single side
contains all three vertices; the hypotenuse edge separates), a lane with a
negative mask value whose pixel is not drawn, and a concrete instance of
the OR sign characterization. -/
theorem c8_scissor_fold_witness :
    drawTrianglePixels gExample (vertexAt (-160) 80 0 1) (vertexAt (-160) (-160) 0 1)
      (vertexAt 80 (-160) 0 1) = [] ∧
    (sliceColX 0 0 + ((0 % 2 : Nat) : Int),
      screenToDrawing (0 + 32 * ((0 : Nat) : Int)) + ((0 / 2 : Nat) : Int)) ∉
      quadPixels (vertexAt (-160) 80 0 1) (vertexAt (-160) (-160) 0 1)
        (vertexAt 80 (-160) 0 1) 0 0 31 31 0 0 ∧
    (0 ≤ intOr (intOr (intOr 5 7) 9) 11 ↔
      (0 ≤ (5 : Int) ∧ 0 ≤ (7 : Int) ∧ 0 ≤ (9 : Int) ∧ 0 ≤ (11 : Int))) :=
  let thm := c8_scissor_fold gExample (vertexAt (-160) 80 0 1) (vertexAt (-160) (-160) 0 1)
    (vertexAt 80 (-160) 0 1) 0 0 31 31
    (Or.inr (Or.inr (Or.inr (Or.inr (Or.inr (Or.inl
      ⟨by decide, by decide, by decide, by decide⟩))))))
  ⟨thm.1, thm.2.1 0 0 0 (by decide) (by decide), thm.2.2 5 7 9 11⟩

/-- C7: when the clear-mode color and alpha masks are disabled (color and
alpha kept) and the clear-mode depth mask is enabled, ClearRectangle leaves
every color framebuffer byte unchanged, writes the clear depth value to
every depth cell of the rectangle, and leaves every depth cell outside the
rectangle unchanged. -/
theorem c7_clear_depth_only (g : GState) (v0 v1 : VertexData) (fb depth : Buffer)
    (hc : g.clearModeColorMask = false) (ha : g.clearModeAlphaMask = false)
    (hd : g.clearModeDepthMask = true) (hm : g.colorMask < 4294967296) :
    (clearRectangle g v0 v1 fb depth).1 = fb ∧
    (∀ x y : Int,
      screenToDrawing (clearRectMinX g v0 v1) ≤ x →
      x < screenToDrawing (clearRectMinX g v0 v1) + clearRectW g v0 v1 →
      screenToDrawing (clearRectMinY g v0 v1) ≤ y →
      y < screenToDrawing (clearRectMaxY g v0 v1) →
      (clearRectangle g v0 v1 fb depth).2 x y = v1.screenpos.z) ∧
    (∀ x y : Int,
      (x < screenToDrawing (clearRectMinX g v0 v1) ∨
       screenToDrawing (clearRectMinX g v0 v1) + clearRectW g v0 v1 ≤ x ∨
       y < screenToDrawing (clearRectMinY g v0 v1) ∨
       screenToDrawing (clearRectMaxY g v0 v1) ≤ y) →
      (clearRectangle g v0 v1 fb depth).2 x y = depth x y) := by
  have h0 : clearKeepOldMask g = 4294967295 := by
    simp only [clearKeepOldMask, hc, ha, if_false]
    exact lor_ones32 _ hm
  have key : clearKeepOldMaskFmt g = 4294967295 := by
    rcases hf : g.fbFormat <;> simp only [clearKeepOldMaskFmt, h0, hf] <;> decide
  refine ⟨?_, ?_, ?_⟩
  · simp only [clearRectangle, key]
    split_ifs <;> simp_all
  · intro x y hx1 hx2 hy1 hy2
    have hw2 : ¬ clearRectW g v0 v1 ≤ 0 := by omega
    simp only [clearRectangle, hd, if_true, if_neg hw2]
    exact if_pos ⟨hx1, by omega, hy1, hy2⟩
  · intro x y hout
    simp only [clearRectangle, hd, if_true]
    rcases le_or_lt (clearRectW g v0 v1) 0 with hw | hw
    · rw [if_pos hw]
    · rw [if_neg (by omega)]
      exact if_neg (by omega)

/-- Witness for c7_clear_depth_only: clearing with depth mask only over the
4x4-pixel rectangle from (0,0) to (64,64) subpixels, depth value 77. -/
theorem c7_clear_depth_only_witness :
    (clearRectangle gExample (vertexAt 0 0 0 1) (vertexAt 64 64 77 1)
      bufExample bufExample).1 = bufExample ∧
    (clearRectangle gExample (vertexAt 0 0 0 1) (vertexAt 64 64 77 1)
      bufExample bufExample).2 2 3 = 77 ∧
    (clearRectangle gExample (vertexAt 0 0 0 1) (vertexAt 64 64 77 1)
      bufExample bufExample).2 10 2 = bufExample 10 2 :=
  let thm := c7_clear_depth_only gExample (vertexAt 0 0 0 1) (vertexAt 64 64 77 1)
    bufExample bufExample rfl rfl rfl (by decide)
  ⟨thm.1, thm.2.1 2 3 (by decide) (by decide) (by decide) (by decide),
    thm.2.2 10 2 (Or.inr (Or.inl (by decide)))⟩

/-- C9: in the event trace of DrawTriangle, any slice execution happens
strictly after both the compiled pixel function and the sampler functions
have been resolved on the calling thread (positions 0 and 1 of the trace),
and no resolution event ever follows a slice execution - workers never
trigger compilation or cache population. -/
theorem c9_resolve_before_fanout (g : GState) (v0 v1 v2 : VertexData) (n : Nat) :
    (∀ j : Nat, (drawTriangleEvents g v0 v1 v2 n)[j]? = some DrawEvent.sliceRun →
      2 ≤ j ∧ (drawTriangleEvents g v0 v1 v2 n)[0]? = some DrawEvent.resolvePixelFunc ∧
        (drawTriangleEvents g v0 v1 v2 n)[1]? = some DrawEvent.resolveSampler) ∧
    (∀ i j : Nat, j ≤ i → (drawTriangleEvents g v0 v1 v2 n)[j]? = some DrawEvent.sliceRun →
      (drawTriangleEvents g v0 v1 v2 n)[i]? ≠ some DrawEvent.resolvePixelFunc ∧
      (drawTriangleEvents g v0 v1 v2 n)[i]? ≠ some DrawEvent.resolveSampler) := by
  simp only [drawTriangleEvents]
  split_ifs with hA hB hC
  · exact ⟨fun j hj => by simp at hj, fun i j hij hj => by simp at hj⟩
  · exact ⟨fun j hj => by simp at hj, fun i j hij hj => by simp at hj⟩
  · exact ⟨fun j hj => by simp at hj, fun i j hij hj => by simp at hj⟩
  · constructor
    · intro j hj
      rcases j with _ | _ | k
      · rw [List.getElem?_cons_zero] at hj
        exact absurd hj (by simp)
      · rw [List.getElem?_cons_succ, List.getElem?_cons_zero] at hj
        exact absurd hj (by simp)
      · exact ⟨by omega, by simp, by simp⟩
    · intro i j hij hj
      have hj2 : 2 ≤ j := by
        rcases j with _ | _ | k
        · rw [List.getElem?_cons_zero] at hj
          exact absurd hj (by simp)
        · rw [List.getElem?_cons_succ, List.getElem?_cons_zero] at hj
          exact absurd hj (by simp)
        · omega
      rcases i with _ | _ | k
      · omega
      · omega
      · rw [List.getElem?_cons_succ, List.getElem?_cons_succ, List.getElem?_replicate]
        split_ifs <;> simp

/-- Witness for c9_resolve_before_fanout: a counter-clockwise triangle with
two slices; position 2 is a slice execution preceded by the two
resolutions, and position 3 holds no resolution event. -/
theorem c9_resolve_before_fanout_witness :
    (2 ≤ 2 ∧
      (drawTriangleEvents gExample (vertexAt 0 0 0 1) (vertexAt 64 64 0 1)
        (vertexAt 0 64 0 1) 2)[0]? = some DrawEvent.resolvePixelFunc ∧
      (drawTriangleEvents gExample (vertexAt 0 0 0 1) (vertexAt 64 64 0 1)
        (vertexAt 0 64 0 1) 2)[1]? = some DrawEvent.resolveSampler) ∧
    ((drawTriangleEvents gExample (vertexAt 0 0 0 1) (vertexAt 64 64 0 1)
        (vertexAt 0 64 0 1) 2)[3]? ≠ some DrawEvent.resolvePixelFunc ∧
      (drawTriangleEvents gExample (vertexAt 0 0 0 1) (vertexAt 64 64 0 1)
        (vertexAt 0 64 0 1) 2)[3]? ≠ some DrawEvent.resolveSampler) :=
  let thm := c9_resolve_before_fanout gExample (vertexAt 0 0 0 1) (vertexAt 64 64 0 1)
    (vertexAt 0 64 0 1) 2
  ⟨thm.1 2 (by decide), thm.2 3 2 (by omega) (by decide)⟩

/-- C10: when the two line endpoints differ by fewer than 16 subpixel
units along the dominant axis (so along both axes), the computed step
count max(abs dx, abs dy)/16 is zero, the per-step loop body never runs,
and DrawLine invokes drawPixel nowhere. -/
theorem c10_short_line (g : GState) (v0 v1 : VertexData)
    (hx : |v1.screenpos.x - v0.screenpos.x| < 16)
    (hy : |v1.screenpos.y - v0.screenpos.y| < 16) :
    lineSteps v0 v1 = 0 ∧ drawLinePixels g v0 v1 = [] := by
  have hs : lineSteps v0 v1 = 0 := by
    simp only [lineSteps]
    split_ifs with h
    · exact Int.ediv_eq_zero_of_lt (abs_nonneg _) hy
    · exact Int.ediv_eq_zero_of_lt (abs_nonneg _) hx
  refine ⟨hs, ?_⟩
  simp [drawLinePixels, hs]

/-- Witness for c10_short_line: endpoints 10 subpixels apart in x and 5 in
y. -/
theorem c10_short_line_witness :
    lineSteps (vertexAt 10 10 0 1) (vertexAt 20 5 0 1) = 0 ∧
    drawLinePixels gExample (vertexAt 10 10 0 1) (vertexAt 20 5 0 1) = [] :=
  c10_short_line gExample (vertexAt 10 10 0 1) (vertexAt 20 5 0 1) (by decide) (by decide)

end SoftRast
